import Mathlib

/-!
Shallow embedding of `tools/build_calendar.py` (the XBI readout-calendar
builder): the partial-date resolver, the event builder with override
application, the per-record assembler checks, the ICS serializer (escaping
and line folding) and the final sort.

Modelling conventions:
* Python strings are Lean `String` / `List Char`; the regex character
  classes `\d`, `\s`, `[A-Za-z]` are modelled over ASCII (registry date
  strings are ASCII).
* `datetime.date` is modelled by `PDate` together with an explicit validity
  check at construction: `datetime.date(y, m, d)` raises `ValueError` on
  out-of-range components, which is modelled by `Except Unit`.
* Machine integers do not occur; all Python ints here are small naturals.
-/

namespace XBI

/-- ASCII decimal digit: models `\d` of the Python regexes. -/
def isDigitChar (c : Char) : Bool := 48 ≤ c.toNat && c.toNat ≤ 57

/-- ASCII whitespace: models `str.strip` whitespace and the regex `\s`. -/
def isSpaceChar (c : Char) : Bool :=
  c.toNat = 32 || c.toNat = 9 || c.toNat = 10 || c.toNat = 13 ||
    c.toNat = 11 || c.toNat = 12

/-- ASCII letter: models `[A-Za-z]`. -/
def isAlphaChar (c : Char) : Bool :=
  (65 ≤ c.toNat && c.toNat ≤ 90) || (97 ≤ c.toNat && c.toNat ≤ 122)

/-- ASCII lowercasing of one character: models `str.lower`. -/
def toLowerChar (c : Char) : Char :=
  if 65 ≤ c.toNat && c.toNat ≤ 90 then Char.ofNat (c.toNat + 32) else c

/-- Numeric value of an ASCII digit (`int` of a one-digit string). -/
def digitVal (c : Char) : Nat := c.toNat - 48

/-- `int` of a two-digit capture group. -/
def num2 (a b : Char) : Nat := digitVal a * 10 + digitVal b

/-- `int` of a four-digit capture group. -/
def num4 (a b c d : Char) : Nat :=
  ((digitVal a * 10 + digitVal b) * 10 + digitVal c) * 10 + digitVal d

/-- Python `value.strip()` over ASCII whitespace. -/
def pstrip (l : List Char) : List Char :=
  ((l.dropWhile isSpaceChar).reverse.dropWhile isSpaceChar).reverse

/-- Gregorian leap year, exactly as `datetime` computes it. -/
def isLeap (y : Nat) : Bool := (y % 4 == 0 && y % 100 != 0) || y % 400 == 0

/-- Length of a Gregorian month (month 2 depends on the leap rule). -/
def daysInMonth (y m : Nat) : Nat :=
  if m = 2 then (if isLeap y then 29 else 28)
  else if m = 4 ∨ m = 6 ∨ m = 9 ∨ m = 11 then 30
  else 31

/-- A `datetime.date` value; validity is enforced at construction time. -/
structure PDate where
  year : Nat
  month : Nat
  day : Nat
deriving DecidableEq, Repr

/-- `datetime.date(y, m, d)`: raises `ValueError` (modelled as `.error ()`)
unless `1 ≤ y ≤ 9999`, `1 ≤ m ≤ 12` and `1 ≤ d ≤ daysInMonth y m`. -/
def mkDate (y m d : Nat) : Except Unit PDate :=
  if 1 ≤ y ∧ y ≤ 9999 ∧ 1 ≤ m ∧ m ≤ 12 ∧ 1 ≤ d ∧ d ≤ daysInMonth y m then
    .ok ⟨y, m, d⟩
  else .error ()

/-- The resolver's last-day computation
`(dt.date(year + month // 12, month % 12 + 1, 1) - dt.timedelta(days=1)).day`:
the day before the first of a month is the last day of the preceding month.
Constructing an out-of-range `dt.date` raises `ValueError`, and stepping
before `date.min` raises `OverflowError`; both are modelled as `.error ()`. -/
def prevMonthLastDay (y m : Nat) : Except Unit Nat :=
  let y2 := y + m / 12
  let m2 := m % 12 + 1
  if 1 ≤ y2 ∧ y2 ≤ 9999 then
    if m2 = 1 then
      if y2 = 1 then .error () else .ok (daysInMonth (y2 - 1) 12)
    else .ok (daysInMonth y2 (m2 - 1))
  else .error ()

/-! ### The five regex matchers of `parse_partial_date`

Each regex of the source is anchored (`^...$`) and built from fixed-width
pieces, so it is faithfully rendered as a sequential matcher: read exactly
the demanded characters, then require the end of the input. -/

/-- Read `\d{4}` at the head of the input. -/
def read4 (l : List Char) : Option (Nat × List Char) :=
  match l with
  | a :: b :: c :: d :: r =>
    if isDigitChar a && isDigitChar b && isDigitChar c && isDigitChar d then
      some (num4 a b c d, r)
    else none
  | _ => none

/-- Read `\d{2}` at the head of the input. -/
def read2 (l : List Char) : Option (Nat × List Char) :=
  match l with
  | a :: b :: r =>
    if isDigitChar a && isDigitChar b then some (num2 a b, r) else none
  | _ => none

/-- Require a literal character at the head of the input. -/
def expectChar (c : Char) (l : List Char) : Option (List Char) :=
  match l with
  | x :: r => if x = c then some r else none
  | [] => none

/-- Require the end of the input (the `$` anchor). -/
def expectEnd (l : List Char) : Option Unit :=
  match l with
  | [] => some ()
  | _ => none

/-- `^(\d{4})-(\d{2})-(\d{2})$`. -/
def matchYMD (l : List Char) : Option (Nat × Nat × Nat) := do
  let (y, r1) ← read4 l
  let r2 ← expectChar '-' r1
  let (mo, r3) ← read2 r2
  let r4 ← expectChar '-' r3
  let (dy, r5) ← read2 r4
  let _ ← expectEnd r5
  pure (y, mo, dy)

/-- `^(\d{4})-(\d{2})$`. -/
def matchYM (l : List Char) : Option (Nat × Nat) := do
  let (y, r1) ← read4 l
  let r2 ← expectChar '-' r1
  let (mo, r3) ← read2 r2
  let _ ← expectEnd r3
  pure (y, mo)

/-- `^(\d{4})$`. -/
def matchY (l : List Char) : Option Nat := do
  let (y, r1) ← read4 l
  let _ ← expectEnd r1
  pure y

/-- `Q` or `q` (the quarter regex carries `re.IGNORECASE`). -/
def expectQ (l : List Char) : Option (List Char) :=
  match l with
  | x :: r => if x = 'Q' ∨ x = 'q' then some r else none
  | [] => none

/-- Read `[1-4]` at the head of the input. -/
def readQDigit (l : List Char) : Option (Nat × List Char) :=
  match l with
  | x :: r => if 49 ≤ x.toNat ∧ x.toNat ≤ 52 then some (digitVal x, r) else none
  | [] => none

/-- `^(\d{4})\s*Q([1-4])$` (IGNORECASE); `\s*` is greedy and `Q` is not
whitespace, so it is exactly `dropWhile isSpaceChar`. -/
def matchQuarter (l : List Char) : Option (Nat × Nat) := do
  let (y, r1) ← read4 l
  let r2 := r1.dropWhile isSpaceChar
  let r3 ← expectQ r2
  let (q, r4) ← readQDigit r3
  let _ ← expectEnd r4
  pure (y, q)

/-- Read one `[A-Za-z]` character. -/
def readAlpha (l : List Char) : Option (Char × List Char) :=
  match l with
  | x :: r => if isAlphaChar x then some (x, r) else none
  | [] => none

/-- One whitespace character, then greedily the rest of a `\s+` run. -/
def expectSpace (l : List Char) : Option (List Char) :=
  match l with
  | x :: r => if isSpaceChar x then some (r.dropWhile isSpaceChar) else none
  | [] => none

/-- `^([A-Za-z]{3})\s+(\d{4})$`. -/
def matchMonYear (l : List Char) : Option (Char × Char × Char × Nat) := do
  let (c1, r1) ← readAlpha l
  let (c2, r2) ← readAlpha r1
  let (c3, r3) ← readAlpha r2
  let r4 ← expectSpace r3
  let (y, r5) ← read4 r4
  let _ ← expectEnd r5
  pure (c1, c2, c3, y)

/-- The `months` lookup table of `parse_partial_date` (keys are already
lowercased by the caller). -/
def monthOfAbbrev (l : List Char) : Option Nat :=
  if l = ['j', 'a', 'n'] then some 1
  else if l = ['f', 'e', 'b'] then some 2
  else if l = ['m', 'a', 'r'] then some 3
  else if l = ['a', 'p', 'r'] then some 4
  else if l = ['m', 'a', 'y'] then some 5
  else if l = ['j', 'u', 'n'] then some 6
  else if l = ['j', 'u', 'l'] then some 7
  else if l = ['a', 'u', 'g'] then some 8
  else if l = ['s', 'e', 'p'] then some 9
  else if l = ['o', 'c', 't'] then some 10
  else if l = ['n', 'o', 'v'] then some 11
  else if l = ['d', 'e', 'c'] then some 12
  else none

/-- `parse_partial_date(value)`.  `Except Unit` models the possibility of an
uncaught `ValueError`/`OverflowError` escaping from `datetime.date`; the
normal returns `date`/`None` are `.ok (some _)` / `.ok none`. -/
def parse_partial_date (value : Option String) : Except Unit (Option PDate) :=
  match value with
  | none => .ok none
  | some str =>
    if str = "" then .ok none
    else
      let v := pstrip str.data
      match matchYMD v with
      | some (y, mo, dy) => (mkDate y mo dy).map some
      | none =>
      match matchYM v with
      | some (y, mo) =>
        match prevMonthLastDay y mo with
        | .ok ld => (mkDate y mo ld).map some
        | .error e => .error e
      | none =>
      match matchY v with
      | some y => (mkDate y 12 31).map some
      | none =>
      match matchQuarter v with
      | some (y, q) =>
        match prevMonthLastDay y (q * 3) with
        | .ok ld => (mkDate y (q * 3) ld).map some
        | .error e => .error e
      | none =>
      match matchMonYear v with
      | some (c1, c2, c3, y) =>
        match monthOfAbbrev [toLowerChar c1, toLowerChar c2, toLowerChar c3] with
        | some mo =>
          match prevMonthLastDay y mo with
          | .ok ld => (mkDate y mo ld).map some
          | .error e => .error e
        | none => .ok none
      | none => .ok none

deriving instance DecidableEq for Except

example : parse_partial_date (some "2026-03-15") = .ok (some ⟨2026, 3, 15⟩) := by decide
example : parse_partial_date (some "2026-03") = .ok (some ⟨2026, 3, 31⟩) := by decide
example : parse_partial_date (some "2026") = .ok (some ⟨2026, 12, 31⟩) := by decide
example : parse_partial_date (some "2026 Q1") = .ok (some ⟨2026, 3, 31⟩) := by decide
example : parse_partial_date (some "2024 Q1") = .ok (some ⟨2024, 3, 31⟩) := by decide
example : parse_partial_date (some "2024Q4") = .ok (some ⟨2024, 12, 31⟩) := by decide
example : parse_partial_date (some "Feb 2026") = .ok (some ⟨2026, 2, 28⟩) := by decide
example : parse_partial_date (some "Feb 2024") = .ok (some ⟨2024, 2, 29⟩) := by decide
example : parse_partial_date (some "") = .ok none := by decide
example : parse_partial_date none = .ok none := by decide
example : parse_partial_date (some "garbage") = .ok none := by decide
example : parse_partial_date (some "  2026-03  ") = .ok (some ⟨2026, 3, 31⟩) := by decide
example : parse_partial_date (some "2026-02-30") = .error () := by decide
example : parse_partial_date (some "2026-13-05") = .error () := by decide

/-! ### Date arithmetic used by `main`

`end_date = today + dt.timedelta(days=WINDOW_MONTHS * 30)` and
`days_ago = (today - results_date).days`. CPython implements both through
the proleptic-Gregorian ordinal (`date.toordinal` / `date.fromordinal`),
which is modelled verbatim here. -/

/-- Days of the proleptic-Gregorian calendar strictly before year `y`. -/
def daysBeforeYear (y : Nat) : Nat :=
  365 * (y - 1) + (y - 1) / 4 - (y - 1) / 100 + (y - 1) / 400

/-- Days of year `y` strictly before month `m` (sum of the month lengths). -/
def daysBeforeMonth (y : Nat) : Nat → Nat
  | 0 => 0
  | m + 1 => if m = 0 then 0 else daysBeforeMonth y m + daysInMonth y m

/-- The proleptic-Gregorian ordinal of a date (`date.toordinal`);
`(a - b).days` is `dateOrd a - dateOrd b` over `Int`. -/
def dateOrd (d : PDate) : Nat :=
  daysBeforeYear d.year + daysBeforeMonth d.year d.month + d.day

/-- `date.fromordinal`, following CPython's `_ord2ymd`: peel off 400-, 100-,
4- and 1-year cycles, then locate the month by the `(n + 50) >> 5` estimate
with a one-step correction. -/
def fromOrd (o : Nat) : PDate :=
  let n0 := o - 1
  let n400 := n0 / 146097
  let r400 := n0 % 146097
  let n100 := r400 / 36524
  let r100 := r400 % 36524
  let n4 := r100 / 1461
  let r4 := r100 % 1461
  let n1 := r4 / 365
  let n := r4 % 365
  let year := n400 * 400 + 1 + n100 * 100 + n4 * 4 + n1
  if n1 = 4 ∨ n100 = 4 then ⟨year - 1, 12, 31⟩
  else
    let month := (n + 50) / 32
    let preceding := daysBeforeMonth year month
    if n < preceding then ⟨year, month - 1, n - daysBeforeMonth year (month - 1) + 1⟩
    else ⟨year, month, n - preceding + 1⟩

/-- `d + dt.timedelta(days=n)` (CPython: `fromordinal(toordinal(d) + n)`). -/
def addDays (d : PDate) (n : Nat) : PDate := fromOrd (dateOrd d + n)

/-- Python `date` comparison (chronological, i.e. lexicographic on
year/month/day for valid dates). -/
def dateLe (a b : PDate) : Bool :=
  if a.year ≠ b.year then decide (a.year < b.year)
  else if a.month ≠ b.month then decide (a.month < b.month)
  else decide (a.day ≤ b.day)

example : addDays ⟨2026, 1, 1⟩ 360 = ⟨2026, 12, 27⟩ := by decide
example : addDays ⟨2024, 2, 28⟩ 1 = ⟨2024, 2, 29⟩ := by decide
example : addDays ⟨2023, 2, 28⟩ 1 = ⟨2023, 3, 1⟩ := by decide
example : (dateOrd ⟨2026, 1, 31⟩ : Int) - dateOrd ⟨2026, 1, 1⟩ = 30 := by decide
example : (dateOrd ⟨2026, 3, 1⟩ : Int) - dateOrd ⟨2026, 2, 28⟩ = 1 := by decide
example : (dateOrd ⟨2024, 3, 1⟩ : Int) - dateOrd ⟨2024, 2, 28⟩ = 2 := by decide

/-! ### The data model of `build_event`

The registry payload is a deeply nested mapping that `build_event` reads
through fixed paths (via `safe_get` / `dict.get`, with `None` on any missing
segment).  `Study` carries exactly the leaves those paths reach; a missing
key is `none`.  Python truthiness of strings (`"" or default`, `if s:`) is
modelled explicitly wherever the source relies on it. -/

/-- `a or b` for two optional strings (`None` and `""` are falsy). -/
def pyOrOpt (a b : Option String) : Option String :=
  match a with
  | some s => if s ≠ "" then some s else b
  | none => b

/-- `opt or default` producing a string (`None` and `""` are falsy). -/
def pyOrOptStr (a : Option String) (d : String) : String :=
  match a with
  | some s => if s ≠ "" then s else d
  | none => d

/-- `s or default` for a string (`""` is falsy). -/
def pyOrStr (s d : String) : String := if s ≠ "" then s else d

/-- Rendering an optional string into an f-string (`None` prints as
`"None"`). -/
def pyOptRepr (a : Option String) : String := a.getD "None"

/-- `f"{b}"` for a Python bool. -/
def pyBoolStr (b : Bool) : String := if b then "True" else "False"

/-- `str.lower` over ASCII. -/
def pyLower (s : String) : String := ⟨s.data.map toLowerChar⟩

/-- Sublist-at-front test (BEq-free `List.isPrefixOf`). -/
def listPrefixOf : List Char → List Char → Bool
  | [], _ => true
  | _ :: _, [] => false
  | a :: as, b :: bs => a = b && listPrefixOf as bs

/-- Contiguous-sublist test. -/
def listInfixOf (needle : List Char) : List Char → Bool
  | [] => needle.isEmpty
  | b :: bs => listPrefixOf needle (b :: bs) || listInfixOf needle bs

/-- Python `needle in haystack` substring test. -/
def containsSub (needle hay : String) : Bool := listInfixOf needle.data hay.data

/-- Python `str.endswith`. -/
def listSuffixOf (needle l : List Char) : Bool := listPrefixOf needle.reverse l.reverse

/-- One entry of `designModule.interventions`. -/
structure Intervention where
  type_ : Option String := none
  name : Option String := none

/-- One entry of an outcomes list (`measure`/`timeFrame`/`description`). -/
structure Outcome where
  measure : Option String := none
  timeFrame : Option String := none
  description : Option String := none

/-- The registry-record leaves read by `build_event` and by the per-record
checks of `main` (missing keys are `none`, empty lists model
`.get(..., []) or []`). -/
structure Study where
  idModule_nctId : Option String := none
  top_nctId : Option String := none
  briefTitle : Option String := none
  interventions : List Intervention := []
  phases : List String := []
  conditions : List String := []
  briefSummary : Option String := none
  primaryOutcomes : List Outcome := []
  secondaryOutcomes : List Outcome := []
  sex : Option String := none
  minimumAge : Option String := none
  maximumAge : Option String := none
  healthyVolunteers : Option Bool := none
  eligibilityCriteria : Option String := none
  primaryCompletionDateStruct_date : Option String := none
  primaryCompletionDate : Option String := none
  resultsFirstPostDateStruct_date : Option String := none
  resultsFirstPostDate : Option String := none

/-- A company from the holdings list. -/
structure Company where
  name : String
  ticker : String

/-! #### `strip_markdown`

`re.sub` with the four fixed patterns of the source, implemented as
left-to-right non-overlapping scans (fuel is the input length; every step
consumes at least one character). -/

/-- `re.sub(r"`+", "", text)`: every maximal backtick run is dropped, i.e.
every backtick (codepoint 96) is dropped. -/
def removeTicks (l : List Char) : List Char := l.filter (fun c => c.toNat ≠ 96)

/-- `re.sub(r"\*\*([^*]+)\*\*", r"\1", text)`: scan for `**`, a nonempty
star-free run, `**`; on a match emit the run and continue after it,
otherwise advance one character. -/
def subBold : Nat → List Char → List Char
  | 0, l => l
  | _ + 1, [] => []
  | fuel + 1, '*' :: '*' :: rest =>
    let run := rest.takeWhile (fun c => c ≠ '*')
    let rest2 := rest.dropWhile (fun c => c ≠ '*')
    if run ≠ [] ∧ rest2.take 2 = ['*', '*'] then run ++ subBold fuel (rest2.drop 2)
    else '*' :: subBold fuel ('*' :: rest)
  | fuel + 1, c :: rest => c :: subBold fuel rest

/-- `re.sub(r"\*([^*]+)\*", r"\1")` and `re.sub(r"_([^_]+)_", r"\1")`,
generic in the delimiter. -/
def subDelim (d : Char) : Nat → List Char → List Char
  | 0, l => l
  | _ + 1, [] => []
  | fuel + 1, c :: rest =>
    if c = d then
      let run := rest.takeWhile (fun x => x ≠ d)
      let rest2 := rest.dropWhile (fun x => x ≠ d)
      if run ≠ [] ∧ rest2.take 1 = [d] then run ++ subDelim d fuel (rest2.drop 1)
      else c :: subDelim d fuel rest
    else c :: subDelim d fuel rest

/-- `re.sub(r"\s+", " ", text)`: collapse each whitespace run to one space
(fuel is the input length; every step consumes at least one character). -/
def collapseWs : Nat → List Char → List Char
  | 0, l => l
  | _ + 1, [] => []
  | fuel + 1, c :: rest =>
    if isSpaceChar c then ' ' :: collapseWs fuel (rest.dropWhile isSpaceChar)
    else c :: collapseWs fuel rest

/-- `strip_markdown(text)`. -/
def strip_markdown (s : String) : String :=
  let l0 := removeTicks s.data
  let l1 := subBold l0.length l0
  let l2 := subDelim '*' l1.length l1
  let l3 := subDelim '_' l2.length l2
  ⟨pstrip (collapseWs l3.length l3)⟩

example : strip_markdown "a  **bold**  and *em* and _u_ text" = "a bold and em and u text" := by decide

/-- Splits into whitespace-separated words (Python `str.split()`; fuel is
the input length). -/
def pyWords : Nat → List Char → List (List Char)
  | 0, _ => []
  | _ + 1, [] => []
  | fuel + 1, c :: rest =>
    if isSpaceChar c then pyWords fuel (rest.dropWhile isSpaceChar)
    else (c :: rest.takeWhile (fun x => !isSpaceChar x))
      :: pyWords fuel (rest.dropWhile (fun x => !isSpaceChar x))

/-- Modelled from the library: `textwrap.shorten(text, width=500,
placeholder="...")` collapses whitespace and, when the collapsed text
exceeds the width, keeps a maximal word prefix so that prefix plus
placeholder fit, appending the placeholder. -/
def pyShorten (width : Nat) (ph : String) (s : String) : String :=
  let ws := pyWords s.data.length s.data
  let joined := String.intercalate " " (ws.map (⟨·⟩))
  if joined.length ≤ width then joined
  else
    let rec fit (acc : List Char) : List (List Char) → List Char
      | [] => acc
      | w :: rest =>
        let cand := if acc = [] then w else acc ++ ' ' :: w
        if cand.length + ph.data.length ≤ width then fit cand rest else acc
    ⟨fit [] ws ++ ph.data⟩

/-- `infer_moa(drug_names, summary)`: the ordered keyword classifier
(note the source lowercases `text` first, so the later `"mRNA"`/`"siRNA"`
branches are redundant with their lowercase twins; kept verbatim). -/
def infer_moa (drug_names : List String) (summary : String) : Option String :=
  let text := pyLower (String.intercalate " " drug_names ++ " " ++ summary)
  if containsSub "car-t" text || containsSub "car t" text then some "CAR-T cell therapy"
  else if containsSub "gene therapy" text then some "Gene therapy"
  else if containsSub "mrna" text || containsSub "mRNA" text then some "mRNA-based therapeutic"
  else if containsSub "monoclonal" text
      || drug_names.any (fun n => "mab".data.isSuffixOf (pyLower n).data) then
    some "Monoclonal antibody"
  else if containsSub "siRNA" text || containsSub "sirna" text then some "siRNA therapeutic"
  else if containsSub "small molecule" text then some "Small-molecule therapeutic"
  else none

/-- The intervention-name collection of `build_event`: names of type
drug/biological/genetic/cell, falling back to all nonempty names. -/
def drug_names_of (interventions : List Intervention) : List String :=
  let primary := interventions.filterMap (fun i =>
    let t := pyLower (i.type_.getD "")
    let n := i.name.getD ""
    if (t = "drug" ∨ t = "biological" ∨ t = "genetic" ∨ t = "cell") ∧ n ≠ "" then
      some n
    else none)
  if primary ≠ [] then primary
  else interventions.filterMap (fun i =>
    let n := i.name.getD ""
    if n ≠ "" then some n else none)

/-- The `outcome_lines` helper of `build_event`. -/
def outcome_lines (items : List Outcome) : List String :=
  items.filterMap (fun it =>
    let bits := [it.measure.getD "", it.timeFrame.getD "", it.description.getD ""].filter
      (fun b => b ≠ "")
    if bits ≠ [] then some (String.intercalate " — " bits) else none)

/-- The `population` string of `build_event`. -/
def population_of (study : Study) : String :=
  let gender := pyOrOptStr study.sex "Not specified"
  let minAge := pyOrOptStr study.minimumAge "Not specified"
  let maxAge := pyOrOptStr study.maximumAge "Not specified"
  let bits := ["Sex: " ++ gender, "Age: " ++ minAge ++ " to " ++ maxAge]
  let bits :=
    match study.healthyVolunteers with
    | some hv => bits ++ ["Healthy Volunteers: " ++ pyBoolStr hv]
    | none => bits
  String.intercalate "; " bits

/-- `summary_text`: the markdown-stripped brief summary, `""` when absent. -/
def summaryTextOf (study : Study) : String :=
  let s := study.briefSummary.getD ""
  if s ≠ "" then strip_markdown s else ""

/-- `criteria`: stripped and shortened eligibility criteria, `""` when
absent. -/
def criteriaOf (study : Study) : String :=
  let c0 := study.eligibilityCriteria.getD ""
  let c1 := if c0 ≠ "" then strip_markdown c0 else ""
  if c1 ≠ "" then pyShorten 500 "..." c1 else c1

/-- An `overrides.yaml` entry: any subset of the correction fields
(`none` = key absent). -/
structure EndpointsOverride where
  primary : Option (List String) := none
  secondary : Option (List String) := none

structure Override where
  drug : Option String := none
  moa : Option String := none
  indication : Option String := none
  patient_population : Option String := none
  endpoints : Option EndpointsOverride := none
  endpoint_notes : Option String := none

/-- `overrides.get(nct_id, {}) if nct_id else {}` followed by the
`if override:` truthiness test; an absent or empty override dict is
modelled as `none`. -/
def lookupOverride (ovs : String → Option Override) : Option String → Option Override
  | some s => if s ≠ "" then ovs s else none
  | none => none

/-- The override-sensitive intermediate values of `build_event` (the locals
`drug`, `moa`, `conditions`, `population`, `primary_lines`,
`secondary_lines` just before the description is assembled). -/
structure EventFields where
  drug : String
  moa : String
  conditions : List String
  population : String
  primary_lines : List String
  secondary_lines : List String
deriving DecidableEq

/-- The record-derived values of those locals (everything before the
`if override:` block). -/
def derivedFields (study : Study) : EventFields :=
  let dn := drug_names_of study.interventions
  { drug := if dn ≠ [] then String.intercalate ", " dn else "Not specified"
    moa := (infer_moa dn (summaryTextOf study)).getD "Not specified in ClinicalTrials.gov"
    conditions := study.conditions
    population := population_of study
    primary_lines := outcome_lines study.primaryOutcomes
    secondary_lines := outcome_lines study.secondaryOutcomes }

/-- The `if override:` block of `build_event`: `drug`/`moa` replace on key
presence (`dict.get(key, derived)`), `indication`/`patient_population`
replace only when truthy, and the `endpoints` sub-dict (when truthy)
replaces each of its present lists. -/
def applyOverride (ov : Option Override) (f : EventFields) : EventFields :=
  match ov with
  | none => f
  | some o =>
    let drug := o.drug.getD f.drug
    let moa := o.moa.getD f.moa
    let conditions :=
      match o.indication with
      | some s => if s ≠ "" then [s] else f.conditions
      | none => f.conditions
    let population :=
      match o.patient_population with
      | some s => if s ≠ "" then s else f.population
      | none => f.population
    let ep :=
      match o.endpoints with
      | some e =>
        if e.primary.isSome || e.secondary.isSome then
          (e.primary.getD f.primary_lines, e.secondary.getD f.secondary_lines)
        else (f.primary_lines, f.secondary_lines)
      | none => (f.primary_lines, f.secondary_lines)
    { drug := drug, moa := moa, conditions := conditions, population := population
      primary_lines := ep.1, secondary_lines := ep.2 }

/-- The `desc_lines` list of `build_event` (fixed base block, then the
optional endpoint, criteria, notes and summary blocks, then the URL). -/
def desc_lines_of (company : Company) (stockLine phase : String) (f : EventFields)
    (criteria : String) (endpointNotes : Option String) (summaryText url : String) :
    List String :=
  let indication := if f.conditions ≠ [] then String.intercalate "; " f.conditions
                    else "Not specified"
  ["Company: " ++ company.name,
   "Ticker: " ++ company.ticker,
   "Stock Price: " ++ stockLine,
   "Drug: " ++ f.drug,
   "MOA: " ++ f.moa,
   "Phase: " ++ phase,
   "Indication: " ++ indication,
   "Patient Population: " ++ f.population]
  ++ (if f.primary_lines ≠ [] then
        "Primary Endpoints:" :: f.primary_lines.map (fun l => "- " ++ l) else [])
  ++ (if f.secondary_lines ≠ [] then
        "Secondary Endpoints:" :: f.secondary_lines.map (fun l => "- " ++ l) else [])
  ++ (if criteria ≠ "" then ["Eligibility Criteria (excerpt): " ++ criteria] else [])
  ++ (match endpointNotes with
      | some s => if s ≠ "" then ["Endpoint Notes: " ++ s] else []
      | none => [])
  ++ (if summaryText ≠ "" then ["Summary: " ++ summaryText] else [])
  ++ ["ClinicalTrials.gov: " ++ url]

/-- `str.title()` over ASCII: uppercase a letter after a non-letter,
lowercase a letter after a letter. -/
def pyTitleAux : Bool → List Char → List Char
  | _, [] => []
  | prevAlpha, c :: rest =>
    let c' :=
      if isAlphaChar c then
        if prevAlpha then toLowerChar c
        else if 97 ≤ c.toNat ∧ c.toNat ≤ 122 then Char.ofNat (c.toNat - 32) else c
      else c
    c' :: pyTitleAux (isAlphaChar c) rest

def pyTitle (s : String) : String := ⟨pyTitleAux false s.data⟩

/-- `event_type.replace('_', ' ')`. -/
def underscoreToSpace (s : String) : String :=
  ⟨s.data.map (fun c => if c = '_' then ' ' else c)⟩

example : pyTitle (underscoreToSpace "readout_proxy") = "Readout Proxy" := by decide
example : pyTitle (underscoreToSpace "results_posted") = "Results Posted" := by decide

/-- `event_date.isoformat()`. -/
def pad2 (n : Nat) : String := if n < 10 then "0" ++ toString n else toString n

def pad4 (n : Nat) : String :=
  if n < 10 then "000" ++ toString n
  else if n < 100 then "00" ++ toString n
  else if n < 1000 then "0" ++ toString n
  else toString n

def isoDate (d : PDate) : String := pad4 d.year ++ "-" ++ pad2 d.month ++ "-" ++ pad2 d.day

example : isoDate ⟨2026, 3, 5⟩ = "2026-03-05" := by decide

/-- Models Python `f"{x:.2f}"` for the stock price.  `Float` formatting is
opaque to the kernel; no claim inspects a formatted price (the claims'
witnesses all use an absent price). -/
def fmt2 (x : Float) : String := x.toString

/-- The output entity (`@dataclass TrialEvent`); `nct_id` keeps the
possibly-absent registry id exactly as the source passes it along. -/
structure TrialEvent where
  uid : String
  date : PDate
  summary : String
  description : String
  url : String
  company : String
  ticker : String
  stock_price : Option Float
  stock_price_date : Option String
  nct_id : Option String
  event_type : String

/-- `build_event(company, study, stock_price, stock_date, overrides,
event_type, event_date)`. -/
def build_event (overrides : String → Option Override) (company : Company)
    (study : Study) (stock_price : Option Float) (stock_date : Option String)
    (event_type : String) (event_date : PDate) : TrialEvent :=
  let nct_id := pyOrOpt study.idModule_nctId study.top_nctId
  let brief_title := pyOrOptStr study.briefTitle "Clinical study"
  let url := "https://clinicaltrials.gov/study/" ++ pyOptRepr nct_id
  let phase := pyOrStr (String.intercalate ", " study.phases) "Not specified"
  let summary_text := summaryTextOf study
  let criteria := criteriaOf study
  let ov := lookupOverride overrides nct_id
  let f := applyOverride ov (derivedFields study)
  let stock_line :=
    match stock_price with
    | none => "Not available"
    | some p =>
      match stock_date with
      | some d => if d ≠ "" then "$" ++ fmt2 p ++ " (as of " ++ d ++ ")" else "$" ++ fmt2 p
      | none => "$" ++ fmt2 p
  let title_drug := if f.drug ≠ "Not specified" then f.drug else brief_title
  let summary := company.name ++ " (" ++ company.ticker ++ ") — " ++ title_drug
    ++ " — " ++ pyTitle (underscoreToSpace event_type)
  let endpoint_notes := ov.bind (fun o => o.endpoint_notes)
  let lines := desc_lines_of company stock_line phase f criteria endpoint_notes summary_text url
  let description := String.intercalate "\n" lines
  let uid := pyOptRepr nct_id ++ "-" ++ event_type ++ "-" ++ isoDate event_date
  { uid := uid, date := event_date, summary := summary, description := description
    url := url, company := company.name, ticker := company.ticker
    stock_price := stock_price, stock_price_date := stock_date
    nct_id := nct_id, event_type := event_type }

/-! ### The per-record assembler checks of `main`

For one `(company, study)` pair, the body of the inner loop of `main`:
resolve the primary-completion date and emit a `readout_proxy` event when it
lies in `[today, end_date]`, then resolve the results-first-posted date and
emit a `results_posted` event when it was posted between 0 and 30 days ago.
An uncaught exception from the resolver is propagated (`Except`). -/

def WINDOW_MONTHS : Nat := 12

def RECENT_RESULTS_DAYS : Int := 30

/-- `end_date = today + dt.timedelta(days=WINDOW_MONTHS * 30)`. -/
def endDateOf (today : PDate) : PDate := addDays today (WINDOW_MONTHS * 30)

def recordEvents (overrides : String → Option Override) (company : Company)
    (study : Study) (price : Option Float) (price_date : Option String)
    (today end_date : PDate) : Except Unit (List TrialEvent) := do
  let primaryRaw := pyOrOpt study.primaryCompletionDateStruct_date study.primaryCompletionDate
  let primary ← parse_partial_date primaryRaw
  let ev1 : List TrialEvent :=
    match primary with
    | some d =>
      if dateLe today d && dateLe d end_date then
        [build_event overrides company study price price_date "readout_proxy" d]
      else []
    | none => []
  let resultsRaw := pyOrOpt study.resultsFirstPostDateStruct_date study.resultsFirstPostDate
  let results ← parse_partial_date resultsRaw
  let ev2 : List TrialEvent :=
    match results with
    | some rd =>
      let days_ago : Int := (dateOrd today : Int) - (dateOrd rd : Int)
      if 0 ≤ days_ago ∧ days_ago ≤ RECENT_RESULTS_DAYS then
        [build_event overrides company study price price_date "results_posted" rd]
      else []
    | none => []
  pure (ev1 ++ ev2)

/-! ### The ICS serializer -/

/-- One pass of `str.replace` with a single-character needle (left-to-right,
non-overlapping — for a one-character needle this is character-wise). -/
def replaceChar (needle : Char) (repl : List Char) (l : List Char) : List Char :=
  l.flatMap (fun c => if c = needle then repl else [c])

/-- `ics_escape(text)`: the four sequential `str.replace` calls of the
source, backslash first. -/
def ics_escape (s : String) : String :=
  ⟨replaceChar '\n' ['\\', 'n']
    (replaceChar ',' ['\\', ',']
      (replaceChar ';' ['\\', ';']
        (replaceChar '\\' ['\\', '\\'] s.data)))⟩

/-- `"\r\n".join(parts)`. -/
def joinSep (sep : List Char) : List (List Char) → List Char
  | [] => []
  | [x] => x
  | x :: y :: t => x ++ sep ++ joinSep sep (y :: t)

/-- The `while line:` loop of `fold_ics_line`: successive continuation
chunks of 74 characters, each prefixed with one space (fuel is the input
length; every step consumes at least one character). -/
def foldParts : Nat → List Char → List (List Char)
  | 0, _ => []
  | _ + 1, [] => []
  | fuel + 1, c :: rest => (' ' :: (c :: rest).take 74) :: foldParts fuel ((c :: rest).drop 74)

/-- `fold_ics_line(line)`. -/
def fold_ics_line (line : String) : String :=
  if line.length ≤ 75 then line
  else ⟨joinSep ['\r', '\n']
    (line.data.take 75 :: foldParts line.data.length (line.data.drop 75))⟩

/-! ### The final sort of `main`

`events.sort(key=lambda e: (e.date, e.company, e.nct_id))`: a stable sort by
the lexicographic tuple key.  Python compares dates chronologically
(equivalently, lexicographically on year/month/day), strings by code point,
and would raise comparing a `None` id against a string; `⊥` orders an absent
id first, which no claim exercises. -/

/-- The Python sort key as a lexicographic-order value. -/
def toKey (e : TrialEvent) :
    Lex (Nat × Lex (Nat × Lex (Nat × Lex (String × WithBot String)))) :=
  toLex (e.date.year, toLex (e.date.month, toLex (e.date.day,
    toLex (e.company,
      match e.nct_id with
      | some s => (s : WithBot String)
      | none => ⊥))))

def keyRel (a b : TrialEvent) : Prop := toKey a ≤ toKey b

instance : DecidableRel keyRel :=
  fun a b => inferInstanceAs (Decidable (toKey a ≤ toKey b))

instance : IsTotal TrialEvent keyRel := ⟨fun a b => le_total (toKey a) (toKey b)⟩

instance : IsTrans TrialEvent keyRel := ⟨fun _ _ _ h1 h2 => le_trans h1 h2⟩

/-- `events.sort(key=...)`: a stable comparison sort; insertion sort is
stable, so it produces the identical list. -/
def sortEvents (l : List TrialEvent) : List TrialEvent := l.insertionSort keyRel

/-! ### Spec-side definitions (for refinement claims)

These follow the specification's words, to be compared with the definitions
embedded from the source. -/

/-- Follows the spec's words for the escaping rule: the intended effect of
the four substitutions is a single simultaneous character-wise escape
(backslash, semicolon, comma and newline each get a backslash escape; no
character introduced by one substitution is escaped again). -/
def escSpecChar (c : Char) : List Char :=
  if c = '\\' then ['\\', '\\']
  else if c = ';' then ['\\', ';']
  else if c = ',' then ['\\', ',']
  else if c = '\n' then ['\\', 'n']
  else [c]

/-- The simultaneous one-pass escape, per the spec's words. -/
def ics_escape_spec (s : String) : String := ⟨s.data.flatMap escSpecChar⟩

/-- Follows the spec's words for folding: the remainder after the first 75
characters, cut into successive chunks of (up to) 74 characters. -/
def chunks74 : Nat → List Char → List (List Char)
  | 0, _ => []
  | _ + 1, [] => []
  | fuel + 1, c :: rest => ((c :: rest).take 74) :: chunks74 fuel ((c :: rest).drop 74)

/-- Removes every occurrence of the three-character sequence
carriage-return / line-feed / space, scanning left to right (the unfolding
operation of claim C10). -/
def remFold : List Char → List Char
  | '\r' :: '\n' :: ' ' :: rest => remFold rest
  | c :: rest => c :: remFold rest
  | [] => []

/-- Modelled from the spec: "today + 12 months" read as calendar-month
addition (the same day of month, twelve calendar months later; the day is
clamped into the target month). -/
def addMonthsSpec (d : PDate) (k : Nat) : PDate :=
  let m0 := d.month - 1 + k
  let y := d.year + m0 / 12
  let m := m0 % 12 + 1
  ⟨y, m, min d.day (daysInMonth y m)⟩

/-! ### Concrete sample data for witnesses -/

def sampleCompany : Company := ⟨"Acme Bio", "ACME"⟩

/-- A record whose primary-completion date is 2027-01-01: exactly twelve
calendar months after a run dated 2026-01-01. -/
def studyNextJan : Study :=
  { top_nctId := some "NCT00000001"
    primaryCompletionDateStruct_date := some "2027-01-01" }

/-- A record carrying both a qualifying primary-completion date and a
qualifying results-posted date relative to 2026-06-15. -/
def studyDual : Study :=
  { idModule_nctId := some "NCT00000002"
    primaryCompletionDateStruct_date := some "2026-09-30"
    resultsFirstPostDateStruct_date := some "2026-06-01" }

/-- A record whose results were first posted exactly 30 days before
2026-01-31. -/
def studyResults30 : Study :=
  { idModule_nctId := some "NCT00000003"
    resultsFirstPostDateStruct_date := some "2026-01-01" }

/-- A record whose primary completion falls exactly on
`today + 360 days` for a run dated 2026-01-01. -/
def studyBoundary : Study :=
  { idModule_nctId := some "NCT00000004"
    primaryCompletionDateStruct_date := some "2026-12-27" }

/-- A minimal record with an id, for the override-granularity witness. -/
def studyPlain : Study :=
  { idModule_nctId := some "NCT00000005"
    conditions := ["Melanoma"]
    interventions := [{ type_ := some "Drug", name := some "acmebrutinib" }] }

def mkSampleEvent (nm tick : String) (nct : String) (d : PDate) : TrialEvent :=
  build_event (fun _ => none) ⟨nm, tick⟩ { idModule_nctId := some nct } none none
    "readout_proxy" d

/-! ## Helper lemmas -/

theorem digit_not_space {c : Char} (h : isDigitChar c = true) : isSpaceChar c = false := by
  simp [isDigitChar] at h
  simp [isSpaceChar]
  omega

theorem alpha_not_space {c : Char} (h : isAlphaChar c = true) : isSpaceChar c = false := by
  simp [isAlphaChar] at h
  simp [isSpaceChar]
  omega

theorem alpha_not_digit {c : Char} (h : isAlphaChar c = true) : isDigitChar c = false := by
  simp [isAlphaChar] at h
  simp [isDigitChar]
  omega

theorem space_not_digit {c : Char} (h : isSpaceChar c = true) : isDigitChar c = false := by
  simp [isSpaceChar] at h
  simp [isDigitChar]
  omega

theorem digitVal_le {c : Char} (h : isDigitChar c = true) : digitVal c ≤ 9 := by
  simp [isDigitChar] at h
  simp [digitVal]
  omega

theorem num4_le {a b c d : Char} (ha : isDigitChar a = true) (hb : isDigitChar b = true)
    (hc : isDigitChar c = true) (hd : isDigitChar d = true) : num4 a b c d ≤ 9999 := by
  have := digitVal_le ha
  have := digitVal_le hb
  have := digitVal_le hc
  have := digitVal_le hd
  simp [num4, num2]
  omega

theorem sdata_append (a b : String) : (a ++ b).data = a.data ++ b.data := rfl

theorem exceptBind_ok {α β : Type} (a : α) (f : α → Except Unit β) :
    (Except.ok a : Except Unit α) >>= f = f a := rfl


theorem build_event_event_type (ovs c study p pd et d) :
    (build_event ovs c study p pd et d).event_type = et := rfl

theorem build_event_date (ovs c study p pd et d) :
    (build_event ovs c study p pd et d).date = d := rfl

theorem build_event_uid (ovs c study p pd et d) :
    (build_event ovs c study p pd et d).uid =
      pyOptRepr (pyOrOpt study.idModule_nctId study.top_nctId) ++ "-" ++ et ++ "-" ++ isoDate d := rfl

theorem filter_event_type_ne (ovs : String → Option Override) (c : Company) (study : Study)
    (p : Option Float) (pd : Option String) (et et' : String) (d : PDate)
    (h : (et == et') = false) :
    ([build_event ovs c study p pd et d].filter (fun e => e.event_type == et')) = [] := by
  simp [List.filter, build_event_event_type, h]

theorem filter_event_type_eq (ovs : String → Option Override) (c : Company) (study : Study)
    (p : Option Float) (pd : Option String) (et : String) (d : PDate) :
    ([build_event ovs c study p pd et d].filter (fun e => e.event_type == et)) =
      [build_event ovs c study p pd et d] := by
  simp [List.filter, build_event_event_type]

/-! ## C2 -/

/-- C2: the claim says every non-matching input — including malformed date
strings — resolves to `None` without raising; but `"2026-02-30"` passes the
`YYYY-MM-DD` regex and `dt.date(2026, 2, 30)` raises `ValueError`
(February 2026 has 28 days), so `parse_partial_date` raises instead of
returning `None`, contradicting the documented never-raise policy. -/
theorem C2_malformed_date_raises : parse_partial_date (some "2026-02-30") = .error () := by
  decide

/-! ## C7 -/

/-- C7: `ics_escape` applies backslash, semicolon, comma and newline
substitutions in exactly that order, and this equals the simultaneous
one-pass escape — so characters introduced by later substitutions are never
double-escaped. -/
theorem C7_escape_order_one_pass (s : String) : ics_escape s = ics_escape_spec s := by
  have key : ∀ l : List Char,
      replaceChar '\n' ['\\', 'n']
        (replaceChar ',' ['\\', ',']
          (replaceChar ';' ['\\', ';']
            (replaceChar '\\' ['\\', '\\'] l))) = l.flatMap escSpecChar := by
    intro l
    induction l with
    | nil => rfl
    | cons c t ih =>
      simp only [replaceChar] at ih ⊢
      simp only [List.flatMap_cons, List.flatMap_append, ih]
      by_cases h1 : c = '\\'
      · subst h1; simp [escSpecChar]
      · by_cases h2 : c = ';'
        · subst h2; simp [escSpecChar]
        · by_cases h3 : c = ','
          · subst h3; simp [escSpecChar]
          · by_cases h4 : c = '\n'
            · subst h4; simp [escSpecChar]
            · simp [escSpecChar, h1, h2, h3, h4]
  exact congrArg String.mk (key s.data)

/-! ## C8 -/

theorem foldParts_eq_chunks (fuel : Nat) : ∀ l : List Char,
    foldParts fuel l = (chunks74 fuel l).map (fun c => ' ' :: c) := by
  induction fuel with
  | zero => intro l; rfl
  | succ n ih =>
    intro l
    cases l with
    | nil => rfl
    | cons c t => simp [foldParts, chunks74, ih]

/-- C8: a line longer than 75 characters is folded into its first 75
characters followed by continuation chunks of one space plus the next 74
characters, joined by CR/LF; a line of at most 75 characters is returned
unchanged. -/
theorem C8_fold_structure (s : String) :
    (s.length ≤ 75 → fold_ics_line s = s) ∧
    (75 < s.length → (fold_ics_line s).data =
      joinSep ['\r', '\n'] (s.data.take 75 ::
        (chunks74 s.data.length (s.data.drop 75)).map (fun c => ' ' :: c))) := by
  constructor
  · intro h
    simp [fold_ics_line, h]
  · intro h
    have h' : ¬ s.length ≤ 75 := by omega
    simp [fold_ics_line, h', foldParts_eq_chunks]

theorem C8_fold_structure_witness :
    (fold_ics_line "BEGIN:VCALENDAR" = "BEGIN:VCALENDAR") ∧
    ((fold_ics_line "DESCRIPTION:Company: Acme Bio\\nTicker: ACME\\nDrug: acmebrutinib\\nMOA: Not specified\\nPhase: PHASE2").data =
      joinSep ['\r', '\n']
        ("DESCRIPTION:Company: Acme Bio\\nTicker: ACME\\nDrug: acmebrutinib\\nMOA: Not specified\\nPhase: PHASE2".data.take 75 ::
          (chunks74 "DESCRIPTION:Company: Acme Bio\\nTicker: ACME\\nDrug: acmebrutinib\\nMOA: Not specified\\nPhase: PHASE2".data.length
            ("DESCRIPTION:Company: Acme Bio\\nTicker: ACME\\nDrug: acmebrutinib\\nMOA: Not specified\\nPhase: PHASE2".data.drop 75)).map
            (fun c => ' ' :: c))) :=
  ⟨(C8_fold_structure _).1 (by decide), (C8_fold_structure _).2 (by decide)⟩

/-! ## C10 -/

theorem remFold_marker (z : List Char) : remFold ('\r' :: '\n' :: ' ' :: z) = remFold z := rfl

theorem remFold_cons_ne {c : Char} (h : c ≠ '\r') (y : List Char) :
    remFold (c :: y) = c :: remFold y := by
  rw [remFold.eq_def]
  split <;> simp_all

theorem remFold_append {a : List Char} (ha : ∀ c ∈ a, c ≠ '\r') (x : List Char) :
    remFold (a ++ x) = a ++ remFold x := by
  induction a with
  | nil => simp
  | cons c t ih =>
    have hc : c ≠ '\r' := ha c (by simp)
    have ht : ∀ c' ∈ t, c' ≠ '\r' := fun c' hc' => ha c' (by simp [hc'])
    simp [List.cons_append, remFold_cons_ne hc, ih ht]

theorem remFold_nil : remFold [] = [] := rfl

theorem remFold_id {l : List Char} (h : ∀ c ∈ l, c ≠ '\r') : remFold l = l := by
  simpa [remFold_nil] using remFold_append h []

theorem joinSep_cons_head (sep : List Char) (c : Char) (u : List Char) (t : List (List Char)) :
    joinSep sep ((c :: u) :: t) = c :: joinSep sep (u :: t) := by
  cases t with
  | nil => rfl
  | cons y t' => simp [joinSep]

theorem remFold_joinSep (fuel : Nat) : ∀ r a : List Char, r.length ≤ fuel →
    (∀ c ∈ a, c ≠ '\r') → (∀ c ∈ r, c ≠ '\r') →
    remFold (joinSep ['\r', '\n'] (a :: foldParts fuel r)) = a ++ r := by
  induction fuel with
  | zero =>
    intro r a hr ha _
    have hnil : r = [] := List.eq_nil_of_length_eq_zero (Nat.le_zero.mp hr)
    subst hnil
    simp [foldParts, joinSep, remFold_id ha]
  | succ n ih =>
    intro r a hr ha hR
    cases r with
    | nil => simp [foldParts, joinSep, remFold_id ha]
    | cons c rest =>
      have hstep : joinSep ['\r', '\n'] (a :: foldParts (n + 1) (c :: rest)) =
          a ++ ('\r' :: '\n' :: ' ' ::
            joinSep ['\r', '\n'] ((c :: rest).take 74 :: foldParts n ((c :: rest).drop 74))) := by
        rw [show foldParts (n + 1) (c :: rest) =
              (' ' :: (c :: rest).take 74) :: foldParts n ((c :: rest).drop 74) from rfl]
        rw [joinSep, joinSep_cons_head]
        simp
      rw [hstep, remFold_append ha, remFold_marker]
      have hlen : ((c :: rest).drop 74).length ≤ n := by
        simp only [List.length_drop]
        have := hr
        simp only [List.length_cons] at this ⊢
        omega
      have ha' : ∀ x ∈ (c :: rest).take 74, x ≠ '\r' :=
        fun x hx => hR x (List.mem_of_mem_take hx)
      have hR' : ∀ x ∈ (c :: rest).drop 74, x ≠ '\r' :=
        fun x hx => hR x (List.mem_of_mem_drop hx)
      rw [ih _ _ hlen ha' hR', List.take_append_drop]

/-- C10: folding is lossless — for a line with no carriage return and no
line feed, deleting every CR/LF/space folding marker from the folded output
restores the original line. -/
theorem C10_fold_lossless (s : String) (h : ∀ c ∈ s.data, c ≠ '\r' ∧ c ≠ '\n') :
    remFold (fold_ics_line s).data = s.data := by
  have hcr : ∀ c ∈ s.data, c ≠ '\r' := fun c hc => (h c hc).1
  by_cases hl : s.length ≤ 75
  · simp [fold_ics_line, hl, remFold_id hcr]
  · simp only [fold_ics_line, if_neg hl]
    have hlen : (s.data.drop 75).length ≤ s.data.length := by
      simp [List.length_drop]
    have ha' : ∀ c ∈ s.data.take 75, c ≠ '\r' :=
      fun c hc => hcr c (List.mem_of_mem_take hc)
    have hr' : ∀ c ∈ s.data.drop 75, c ≠ '\r' :=
      fun c hc => hcr c (List.mem_of_mem_drop hc)
    simpa [List.take_append_drop] using
      remFold_joinSep s.data.length (s.data.drop 75) (s.data.take 75) hlen ha' hr'

theorem C10_fold_lossless_witness :
    remFold (fold_ics_line "SUMMARY:Acme Bio (ACME) — acmebrutinib — Readout Proxy — a long description of the readout").data =
      "SUMMARY:Acme Bio (ACME) — acmebrutinib — Readout Proxy — a long description of the readout".data :=
  C10_fold_lossless _ (by decide)

/-! ## C4 -/

/-- C4: a record whose results-first-posted date resolves produces a
`results_posted` event (dated at that resolved date) exactly when
`today - date` is between 0 and 30 days inclusive — so exactly 30 days ago
is included, 31 days ago is excluded, and a future date (negative
difference) is excluded. -/
theorem C4_results_window (ovs : String → Option Override) (c : Company) (study : Study)
    (p : Option Float) (pd : Option String) (today end_date : PDate)
    (po : Option PDate) (rd : PDate)
    (hp : parse_partial_date
      (pyOrOpt study.primaryCompletionDateStruct_date study.primaryCompletionDate) = .ok po)
    (hr : parse_partial_date
      (pyOrOpt study.resultsFirstPostDateStruct_date study.resultsFirstPostDate) = .ok (some rd)) :
    ∃ l, recordEvents ovs c study p pd today end_date = .ok l ∧
      l.filter (fun e => e.event_type == "results_posted") =
        (if 0 ≤ (dateOrd today : Int) - (dateOrd rd : Int) ∧
            (dateOrd today : Int) - (dateOrd rd : Int) ≤ 30 then
          [build_event ovs c study p pd "results_posted" rd]
        else []) := by
  simp only [recordEvents]
  rw [hp, hr]
  rcases po with _ | d
  · simp only [exceptBind_ok]
    refine ⟨_, rfl, ?_⟩
    rw [List.nil_append, show RECENT_RESULTS_DAYS = (30 : Int) from rfl]
    by_cases hc : 0 ≤ (dateOrd today : Int) - (dateOrd rd : Int) ∧
        (dateOrd today : Int) - (dateOrd rd : Int) ≤ (30 : Int)
    · rw [if_pos hc]
      exact filter_event_type_eq ovs c study p pd _ rd
    · rw [if_neg hc]
      rfl
  · simp only [exceptBind_ok]
    refine ⟨_, rfl, ?_⟩
    rw [List.filter_append]
    have hA : List.filter (fun e => e.event_type == "results_posted")
        (if (dateLe today d && dateLe d end_date) = true then
          [build_event ovs c study p pd "readout_proxy" d]
        else []) = [] := by
      by_cases hw : (dateLe today d && dateLe d end_date) = true
      · rw [if_pos hw]
        exact filter_event_type_ne ovs c study p pd _ _ d (by decide)
      · rw [if_neg hw]
        rfl
    rw [hA, List.nil_append, show RECENT_RESULTS_DAYS = (30 : Int) from rfl]
    by_cases hc : 0 ≤ (dateOrd today : Int) - (dateOrd rd : Int) ∧
        (dateOrd today : Int) - (dateOrd rd : Int) ≤ (30 : Int)
    · rw [if_pos hc]
      exact filter_event_type_eq ovs c study p pd _ rd
    · rw [if_neg hc]
      rfl

theorem C4_results_window_witness :
    (parse_partial_date (pyOrOpt studyResults30.primaryCompletionDateStruct_date
        studyResults30.primaryCompletionDate) = .ok none) ∧
    (parse_partial_date (pyOrOpt studyResults30.resultsFirstPostDateStruct_date
        studyResults30.resultsFirstPostDate) = .ok (some ⟨2026, 1, 1⟩)) ∧
    ((dateOrd ⟨2026, 1, 31⟩ : Int) - (dateOrd ⟨2026, 1, 1⟩ : Int) = 30) ∧
    (∃ l, recordEvents (fun _ => none) sampleCompany studyResults30 none none
        ⟨2026, 1, 31⟩ (endDateOf ⟨2026, 1, 31⟩) = .ok l ∧
      l.filter (fun e => e.event_type == "results_posted") =
        (if 0 ≤ (dateOrd ⟨2026, 1, 31⟩ : Int) - (dateOrd ⟨2026, 1, 1⟩ : Int) ∧
            (dateOrd ⟨2026, 1, 31⟩ : Int) - (dateOrd ⟨2026, 1, 1⟩ : Int) ≤ 30 then
          [build_event (fun _ => none) sampleCompany studyResults30 none none
            "results_posted" ⟨2026, 1, 1⟩]
        else [])) :=
  ⟨by decide, by decide, by decide,
    C4_results_window (fun _ => none) sampleCompany studyResults30 none none
      ⟨2026, 1, 31⟩ (endDateOf ⟨2026, 1, 31⟩) none ⟨2026, 1, 1⟩ (by decide) (by decide)⟩

/-! ## C3 -/

/-- C3 (counterexample): for a run dated 2026-01-01, a record whose
primary-completion date resolves to 2027-01-01 — exactly twelve calendar
months after today — produces no event at all, because the code's window
ends at `today + 12*30 days` = 2026-12-27.  The claim, which includes a
date equal to exactly `today + 12 months`, is therefore false on the code. -/
theorem C3_counterexample :
    addMonthsSpec ⟨2026, 1, 1⟩ 12 = ⟨2027, 1, 1⟩ ∧
    parse_partial_date (pyOrOpt studyNextJan.primaryCompletionDateStruct_date
      studyNextJan.primaryCompletionDate) = .ok (some ⟨2027, 1, 1⟩) ∧
    recordEvents (fun _ => none) sampleCompany studyNextJan none none ⟨2026, 1, 1⟩
      (endDateOf ⟨2026, 1, 1⟩) = .ok [] :=
  ⟨by decide, by decide, rfl⟩

/-- C3 (amended): a record whose primary-completion date resolves to a
concrete date `d` yields a `readout_proxy` event dated `d` exactly when `d`
falls within `[today, today + 360 days]` inclusive (the code implements
"12 months" as `12 * 30` days). -/
theorem C3_readout_window_360 (ovs : String → Option Override) (c : Company) (study : Study)
    (p : Option Float) (pd : Option String) (today : PDate)
    (d : PDate) (ro : Option PDate)
    (hp : parse_partial_date
      (pyOrOpt study.primaryCompletionDateStruct_date study.primaryCompletionDate) = .ok (some d))
    (hr : parse_partial_date
      (pyOrOpt study.resultsFirstPostDateStruct_date study.resultsFirstPostDate) = .ok ro) :
    ∃ l, recordEvents ovs c study p pd today (endDateOf today) = .ok l ∧
      l.filter (fun e => e.event_type == "readout_proxy") =
        (if dateLe today d && dateLe d (addDays today 360) then
          [build_event ovs c study p pd "readout_proxy" d]
        else []) := by
  have hend : endDateOf today = addDays today 360 := rfl
  simp only [recordEvents]
  rw [hp, hr]
  rcases ro with _ | rd
  · simp only [exceptBind_ok]
    refine ⟨_, rfl, ?_⟩
    rw [List.append_nil, hend]
    by_cases hw : (dateLe today d && dateLe d (addDays today 360)) = true
    · rw [if_pos hw]
      exact filter_event_type_eq ovs c study p pd _ d
    · rw [if_neg hw]
      rfl
  · simp only [exceptBind_ok]
    refine ⟨_, rfl, ?_⟩
    rw [List.filter_append]
    have hB : List.filter (fun e => e.event_type == "readout_proxy")
        (if 0 ≤ (dateOrd today : Int) - (dateOrd rd : Int) ∧
            (dateOrd today : Int) - (dateOrd rd : Int) ≤ RECENT_RESULTS_DAYS then
          [build_event ovs c study p pd "results_posted" rd]
        else []) = [] := by
      by_cases hw : 0 ≤ (dateOrd today : Int) - (dateOrd rd : Int) ∧
          (dateOrd today : Int) - (dateOrd rd : Int) ≤ RECENT_RESULTS_DAYS
      · rw [if_pos hw]
        exact filter_event_type_ne ovs c study p pd _ _ rd (by decide)
      · rw [if_neg hw]
        rfl
    rw [hB, List.append_nil, hend]
    by_cases hw : (dateLe today d && dateLe d (addDays today 360)) = true
    · rw [if_pos hw]
      exact filter_event_type_eq ovs c study p pd _ d
    · rw [if_neg hw]
      rfl

theorem C3_readout_window_360_witness :
    (parse_partial_date (pyOrOpt studyBoundary.primaryCompletionDateStruct_date
        studyBoundary.primaryCompletionDate) = .ok (some ⟨2026, 12, 27⟩)) ∧
    (addDays ⟨2026, 1, 1⟩ 360 = ⟨2026, 12, 27⟩) ∧
    (∃ l, recordEvents (fun _ => none) sampleCompany studyBoundary none none
        ⟨2026, 1, 1⟩ (endDateOf ⟨2026, 1, 1⟩) = .ok l ∧
      l.filter (fun e => e.event_type == "readout_proxy") =
        (if dateLe ⟨2026, 1, 1⟩ ⟨2026, 12, 27⟩ && dateLe ⟨2026, 12, 27⟩ (addDays ⟨2026, 1, 1⟩ 360) then
          [build_event (fun _ => none) sampleCompany studyBoundary none none
            "readout_proxy" ⟨2026, 12, 27⟩]
        else [])) :=
  ⟨by decide, by decide,
    C3_readout_window_360 (fun _ => none) sampleCompany studyBoundary none none
      ⟨2026, 1, 1⟩ ⟨2026, 12, 27⟩ none (by decide) (by decide)⟩

/-! ## C6 -/

theorem uid_ne_types (n t1 t2 : String) :
    n ++ "-" ++ "readout_proxy" ++ "-" ++ t1 ≠ n ++ "-" ++ "results_posted" ++ "-" ++ t2 := by
  intro h
  have h' := congrArg String.data h
  simp only [sdata_append, List.append_assoc] at h'
  have h2 := List.append_cancel_left h'
  simp only [List.cons_append, List.nil_append] at h2
  injection h2 with _ h2
  injection h2 with _ h2
  injection h2 with _ h2
  injection h2 with hch _
  exact absurd hch (by decide)

/-- C6: the two classification checks are independent — a record with both
a qualifying primary-completion date and a qualifying results-posted date
yields exactly two events, with distinct `event_type`s and distinct,
deterministic uids of the shape `{registry_id}-{event_type}-{event_date}`. -/
theorem C6_dual_classification (ovs : String → Option Override) (c : Company) (study : Study)
    (p : Option Float) (pd : Option String) (today end_date : PDate) (d1 d2 : PDate)
    (hp : parse_partial_date
      (pyOrOpt study.primaryCompletionDateStruct_date study.primaryCompletionDate) = .ok (some d1))
    (h1 : (dateLe today d1 && dateLe d1 end_date) = true)
    (hr : parse_partial_date
      (pyOrOpt study.resultsFirstPostDateStruct_date study.resultsFirstPostDate) = .ok (some d2))
    (h2 : 0 ≤ (dateOrd today : Int) - (dateOrd d2 : Int) ∧
      (dateOrd today : Int) - (dateOrd d2 : Int) ≤ 30) :
    recordEvents ovs c study p pd today end_date =
      .ok [build_event ovs c study p pd "readout_proxy" d1,
           build_event ovs c study p pd "results_posted" d2] ∧
    (build_event ovs c study p pd "readout_proxy" d1).event_type ≠
      (build_event ovs c study p pd "results_posted" d2).event_type ∧
    (build_event ovs c study p pd "readout_proxy" d1).uid =
      pyOptRepr (pyOrOpt study.idModule_nctId study.top_nctId) ++ "-" ++ "readout_proxy"
        ++ "-" ++ isoDate d1 ∧
    (build_event ovs c study p pd "results_posted" d2).uid =
      pyOptRepr (pyOrOpt study.idModule_nctId study.top_nctId) ++ "-" ++ "results_posted"
        ++ "-" ++ isoDate d2 ∧
    (build_event ovs c study p pd "readout_proxy" d1).uid ≠
      (build_event ovs c study p pd "results_posted" d2).uid := by
  refine ⟨?_, ?_, build_event_uid .., build_event_uid .., ?_⟩
  · simp only [recordEvents]
    rw [hp, hr]
    simp only [exceptBind_ok]
    rw [if_pos h1, if_pos (show (0 ≤ (dateOrd today : Int) - (dateOrd d2 : Int) ∧
      (dateOrd today : Int) - (dateOrd d2 : Int) ≤ RECENT_RESULTS_DAYS) from h2)]
    rfl
  · rw [build_event_event_type, build_event_event_type]
    decide
  · rw [build_event_uid, build_event_uid]
    exact uid_ne_types _ _ _

theorem C6_dual_classification_witness :
    recordEvents (fun _ => none) sampleCompany studyDual none none ⟨2026, 6, 15⟩
        (endDateOf ⟨2026, 6, 15⟩) =
      .ok [build_event (fun _ => none) sampleCompany studyDual none none
            "readout_proxy" ⟨2026, 9, 30⟩,
          build_event (fun _ => none) sampleCompany studyDual none none
            "results_posted" ⟨2026, 6, 1⟩] ∧
    (build_event (fun _ => none) sampleCompany studyDual none none
        "readout_proxy" ⟨2026, 9, 30⟩).uid ≠
      (build_event (fun _ => none) sampleCompany studyDual none none
        "results_posted" ⟨2026, 6, 1⟩).uid :=
  have h := C6_dual_classification (fun _ => none) sampleCompany studyDual none none
    ⟨2026, 6, 15⟩ (endDateOf ⟨2026, 6, 15⟩) ⟨2026, 9, 30⟩ ⟨2026, 6, 1⟩
    (by decide) (by decide) (by decide) (by decide)
  ⟨h.1, h.2.2.2.2⟩

/-! ## C5 -/

theorem lookupOverride_none (x : Option String) :
    lookupOverride (fun _ => none) x = none := by
  cases x with
  | none => rfl
  | some s => simp [lookupOverride]

/-- C5: override application is field-granular.  An override supplying only
`moa` replaces exactly the moa value (`drug`, `indication`, `population`
and both endpoint lists keep their record-derived values); in general every
absent override field keeps its derived value; and on the built event such
an override changes only the `MOA:` description line, leaving the summary
(and every other description line) at the no-override value. -/
theorem C5_override_granularity :
    (∀ (v : String) (f : EventFields),
      applyOverride (some ⟨none, some v, none, none, none, none⟩) f = { f with moa := v })
    ∧ (∀ (o : Override) (f : EventFields),
        (o.drug = none → (applyOverride (some o) f).drug = f.drug)
        ∧ (o.moa = none → (applyOverride (some o) f).moa = f.moa)
        ∧ (o.indication = none → (applyOverride (some o) f).conditions = f.conditions)
        ∧ (o.patient_population = none → (applyOverride (some o) f).population = f.population)
        ∧ (o.endpoints = none →
            (applyOverride (some o) f).primary_lines = f.primary_lines
            ∧ (applyOverride (some o) f).secondary_lines = f.secondary_lines))
    ∧ (∀ (c : Company) (sl ph : String) (f : EventFields) (cr : String)
        (nt : Option String) (st u v : String),
        desc_lines_of c sl ph { f with moa := v } cr nt st u =
          (desc_lines_of c sl ph f cr nt st u).set 4 ("MOA: " ++ v))
    ∧ (∀ (c : Company) (study : Study) (p : Option Float) (pd : Option String)
        (et : String) (d : PDate) (v s : String),
        pyOrOpt study.idModule_nctId study.top_nctId = some s → s ≠ "" →
        (build_event
            (fun k => if k = s then some ⟨none, some v, none, none, none, none⟩ else none)
            c study p pd et d).summary =
          (build_event (fun _ => none) c study p pd et d).summary
        ∧ ∃ lines,
            (build_event (fun _ => none) c study p pd et d).description =
              String.intercalate "\n" lines
            ∧ (build_event
                (fun k => if k = s then some ⟨none, some v, none, none, none, none⟩ else none)
                c study p pd et d).description =
              String.intercalate "\n" (lines.set 4 ("MOA: " ++ v))) := by
  refine ⟨?_, ?_, ?_, ?_⟩
  · intro v f
    rfl
  · intro o f
    refine ⟨?_, ?_, ?_, ?_, ?_⟩
    · intro h
      simp [applyOverride, h]
    · intro h
      simp [applyOverride, h]
    · intro h
      simp [applyOverride, h]
    · intro h
      simp [applyOverride, h]
    · intro h
      constructor <;> simp [applyOverride, h]
  · intro c sl ph f cr nt st u v
    rfl
  · intro c study p pd et d v s hn hs
    have hlook : lookupOverride
        (fun k => if k = s then some (⟨none, some v, none, none, none, none⟩ : Override) else none)
        (pyOrOpt study.idModule_nctId study.top_nctId) = some ⟨none, some v, none, none, none, none⟩ := by
      rw [hn]
      simp [lookupOverride, hs]
    constructor
    · simp only [build_event, hlook, lookupOverride_none]
      rfl
    · refine ⟨desc_lines_of c
        (match p with
          | none => "Not available"
          | some pr =>
            match pd with
            | some dt => if dt ≠ "" then "$" ++ fmt2 pr ++ " (as of " ++ dt ++ ")" else "$" ++ fmt2 pr
            | none => "$" ++ fmt2 pr)
        (pyOrStr (String.intercalate ", " study.phases) "Not specified")
        (derivedFields study) (criteriaOf study) none (summaryTextOf study)
        ("https://clinicaltrials.gov/study/" ++ pyOptRepr (pyOrOpt study.idModule_nctId study.top_nctId)),
        ?_, ?_⟩
      · simp only [build_event, lookupOverride_none]
        rfl
      · simp only [build_event, hlook]
        rfl

theorem C5_override_granularity_witness :
    (applyOverride (some ⟨none, some "Oral kinase inhibitor", none, none, none, none⟩)
        (derivedFields studyPlain) =
      { derivedFields studyPlain with moa := "Oral kinase inhibitor" })
    ∧ (pyOrOpt studyPlain.idModule_nctId studyPlain.top_nctId = some "NCT00000005")
    ∧ ((build_event
          (fun k => if k = "NCT00000005" then
            some ⟨none, some "Oral kinase inhibitor", none, none, none, none⟩ else none)
          sampleCompany studyPlain none none "readout_proxy" ⟨2026, 9, 30⟩).summary =
        (build_event (fun _ => none) sampleCompany studyPlain none none
          "readout_proxy" ⟨2026, 9, 30⟩).summary) :=
  ⟨C5_override_granularity.1 "Oral kinase inhibitor" (derivedFields studyPlain),
   by decide,
   (C5_override_granularity.2.2.2 sampleCompany studyPlain none none "readout_proxy"
      ⟨2026, 9, 30⟩ "Oral kinase inhibitor" "NCT00000005" (by decide) (by decide)).1⟩

/-! ## C9 -/

theorem keyRel_of_same_date_company_lt {a b : TrialEvent}
    (hd : a.date = b.date) (hc : a.company < b.company) :
    keyRel a b ∧ ¬ keyRel b a := by
  constructor
  · show toKey a ≤ toKey b
    simp only [toKey, Prod.Lex.le_iff]
    exact Or.inr ⟨by rw [hd], Or.inr ⟨by rw [hd], Or.inr ⟨by rw [hd], Or.inl hc⟩⟩⟩
  · intro h
    simp only [keyRel, toKey, Prod.Lex.le_iff] at h
    rcases h with h | ⟨h1, h | ⟨h2, h | ⟨h3, h | ⟨h4, h5⟩⟩⟩⟩
    · exact absurd h (by rw [hd]; exact lt_irrefl _)
    · exact absurd h (by rw [hd]; exact lt_irrefl _)
    · exact absurd h (by rw [hd]; exact lt_irrefl _)
    · exact lt_asymm h hc
    · exact absurd hc (by rw [show b.company = a.company from h4]; exact lt_irrefl _)

/-- C9: the assembled collection is sorted by the tuple
(date asc, company asc, registry id asc) and is a permutation of its input;
in particular three same-date events with strictly ascending company names
come out exactly in company order. -/
theorem C9_sort_order :
    (∀ l : List TrialEvent, (sortEvents l).Sorted keyRel ∧ List.Perm (sortEvents l) l)
    ∧ (∀ e1 e2 e3 : TrialEvent, ∀ l : List TrialEvent,
        e1.date = e2.date → e2.date = e3.date →
        e1.company < e2.company → e2.company < e3.company →
        List.Perm l [e1, e2, e3] → sortEvents l = [e1, e2, e3]) := by
  constructor
  · intro l
    exact ⟨List.sorted_insertionSort keyRel l, List.perm_insertionSort keyRel l⟩
  · intro e1 e2 e3 l hd12 hd23 hc12 hc23 hperm
    have hd13 : e1.date = e3.date := hd12.trans hd23
    have hc13 : e1.company < e3.company := hc12.trans hc23
    obtain ⟨h12, h21⟩ := keyRel_of_same_date_company_lt hd12 hc12
    obtain ⟨h23, h32⟩ := keyRel_of_same_date_company_lt hd23 hc23
    obtain ⟨h13, h31⟩ := keyRel_of_same_date_company_lt hd13 hc13
    have hne12 : e1 ≠ e2 := fun h => absurd hc12 (by rw [h]; exact lt_irrefl _)
    have hne13 : e1 ≠ e3 := fun h => absurd hc13 (by rw [h]; exact lt_irrefl _)
    have hne23 : e2 ≠ e3 := fun h => absurd hc23 (by rw [h]; exact lt_irrefl _)
    have hs : (sortEvents l).Sorted keyRel := List.sorted_insertionSort keyRel l
    have hp : List.Perm (sortEvents l) [e1, e2, e3] :=
      (List.perm_insertionSort keyRel l).trans hperm
    have hlen : (sortEvents l).length = 3 := by
      rw [hp.length_eq]
      rfl
    rcases hsl : sortEvents l with _ | ⟨x, _ | ⟨y, _ | ⟨z, _ | ⟨w, t⟩⟩⟩⟩ <;>
      rw [hsl] at hlen <;> simp at hlen
    rw [hsl] at hs hp
    have hrxy : keyRel x y := (List.pairwise_cons.mp hs).1 y (by simp)
    have hrxz : keyRel x z := (List.pairwise_cons.mp hs).1 z (by simp)
    have hryz : keyRel y z :=
      (List.pairwise_cons.mp (List.pairwise_cons.mp hs).2).1 z (by simp)
    have hx : x = e1 := by
      have hxmem : x ∈ [e1, e2, e3] := hp.subset (by simp)
      have he1mem : e1 ∈ x :: y :: z :: [] := hp.symm.subset (by simp)
      rcases (by simpa using hxmem : x = e1 ∨ x = e2 ∨ x = e3) with h | h | h
      · exact h
      · exfalso
        rcases (by simpa using he1mem : e1 = x ∨ e1 = y ∨ e1 = z) with h1 | h1 | h1
        · exact hne12 (h1.trans h)
        · exact h21 (by rw [h, ← h1] at hrxy; exact hrxy)
        · exact h21 (by rw [h, ← h1] at hrxz; exact hrxz)
      · exfalso
        rcases (by simpa using he1mem : e1 = x ∨ e1 = y ∨ e1 = z) with h1 | h1 | h1
        · exact hne13 (h1.trans h)
        · exact h31 (by rw [h, ← h1] at hrxy; exact hrxy)
        · exact h31 (by rw [h, ← h1] at hrxz; exact hrxz)
    subst hx
    have hp2 : List.Perm [y, z] [e2, e3] := hp.cons_inv
    have hy : y = e2 := by
      have hymem : y ∈ [e2, e3] := hp2.subset (by simp)
      rcases (by simpa using hymem : y = e2 ∨ y = e3) with h | h
      · exact h
      · exfalso
        have he2mem : e2 ∈ [y, z] := hp2.symm.subset (by simp)
        rcases (by simpa using he2mem : e2 = y ∨ e2 = z) with h2 | h2
        · exact hne23 (h2.trans h)
        · exact h32 (by rw [h, ← h2] at hryz; exact hryz)
    subst hy
    have hz : z = e3 := by
      have := hp2.cons_inv
      simpa using this
    subst hz
    rfl

theorem C9_sort_order_witness :
    sortEvents [mkSampleEvent "Beta Rx" "BRX" "NCT00000011" ⟨2026, 7, 1⟩,
        mkSampleEvent "Gamma Tx" "GTX" "NCT00000012" ⟨2026, 7, 1⟩,
        mkSampleEvent "Alpha Bio" "ALB" "NCT00000010" ⟨2026, 7, 1⟩] =
      [mkSampleEvent "Alpha Bio" "ALB" "NCT00000010" ⟨2026, 7, 1⟩,
       mkSampleEvent "Beta Rx" "BRX" "NCT00000011" ⟨2026, 7, 1⟩,
       mkSampleEvent "Gamma Tx" "GTX" "NCT00000012" ⟨2026, 7, 1⟩] := by
  refine C9_sort_order.2 _ _ _ _ rfl rfl (by rw [String.lt_iff_toList_lt]; decide)
    (by rw [String.lt_iff_toList_lt]; decide) ?_
  exact List.Perm.trans (List.Perm.cons _ (List.Perm.swap _ _ _)) (List.Perm.swap _ _ _)

/-! ## C1 — helper lemmas on the matchers -/

theorem pstrip_cons_snoc {x y : Char} (hx : isSpaceChar x = false)
    (hy : isSpaceChar y = false) (mid : List Char) :
    pstrip (x :: (mid ++ [y])) = x :: (mid ++ [y])  := by
  simp [pstrip, List.dropWhile_cons, hx, hy]

theorem read4_cons {a b c d : Char} (ha : isDigitChar a = true) (hb : isDigitChar b = true)
    (hc : isDigitChar c = true) (hd : isDigitChar d = true) (r : List Char) :
    read4 (a :: b :: c :: d :: r) = some (num4 a b c d, r) := by
  simp [read4, ha, hb, hc, hd]

theorem read4_fail_head {c : Char} (h : isDigitChar c = false) (r : List Char) :
    read4 (c :: r) = none := by
  rcases r with _ | ⟨b, _ | ⟨c2, _ | ⟨d, r⟩⟩⟩ <;> simp [read4, h]

theorem read2_cons {a b : Char} (ha : isDigitChar a = true) (hb : isDigitChar b = true)
    (r : List Char) : read2 (a :: b :: r) = some (num2 a b, r) := by
  simp [read2, ha, hb]

theorem expectChar_eq {c : Char} (r : List Char) : expectChar c (c :: r) = some r := by
  simp [expectChar]

theorem expectChar_ne {x c : Char} (h : x ≠ c) (r : List Char) :
    expectChar c (x :: r) = none := by
  simp [expectChar, h]

theorem expectChar_nil (c : Char) : expectChar c [] = none := rfl

theorem expectEnd_nil : expectEnd [] = some () := rfl

theorem expectEnd_cons (c : Char) (r : List Char) : expectEnd (c :: r) = none := rfl

theorem optBind_some {α β : Type} (a : α) (f : α → Option β) : (some a >>= f) = f a := rfl

theorem optBind_none {α β : Type} (f : α → Option β) : ((none : Option α) >>= f) = none := rfl

theorem expectQ_pos {x : Char} (h : x = 'Q' ∨ x = 'q') (r : List Char) :
    expectQ (x :: r) = some r := by
  simp only [expectQ]
  rw [if_pos h]

theorem readQDigit_pos {x : Char} (h : 49 ≤ x.toNat ∧ x.toNat ≤ 52) (r : List Char) :
    readQDigit (x :: r) = some (digitVal x, r) := by
  simp only [readQDigit]
  rw [if_pos h]

theorem readAlpha_pos {x : Char} (h : isAlphaChar x = true) (r : List Char) :
    readAlpha (x :: r) = some (x, r) := by
  simp [readAlpha, h]

theorem expectSpace_pos {x : Char} (h : isSpaceChar x = true) (r : List Char) :
    expectSpace (x :: r) = some (r.dropWhile isSpaceChar) := by
  simp [expectSpace, h]

theorem dropWhile_spaces_append {ws : List Char} (h : ∀ c ∈ ws, isSpaceChar c = true)
    (x : List Char) : (ws ++ x).dropWhile isSpaceChar = x.dropWhile isSpaceChar := by
  induction ws with
  | nil => simp
  | cons w t ih =>
    have hw : isSpaceChar w = true := h w (by simp)
    have ht : ∀ c ∈ t, isSpaceChar c = true := fun c hc => h c (by simp [hc])
    simp [List.dropWhile_cons, hw, ih ht]

theorem dropWhile_nonspace_head {c : Char} (h : isSpaceChar c = false) (r : List Char) :
    (c :: r).dropWhile isSpaceChar = c :: r := by
  simp [List.dropWhile_cons, h]

theorem daysInMonth_pos (y m : Nat) : 1 ≤ daysInMonth y m := by
  unfold daysInMonth
  split
  · split <;> omega
  · split <;> omega

theorem daysInMonth_dec (y : Nat) : daysInMonth y 12 = 31 := rfl

theorem prevMonthLastDay_eq {y m : Nat} (hy : 1 ≤ y) (hm1 : 1 ≤ m) (hm2 : m ≤ 12)
    (hcap : y + m / 12 ≤ 9999) : prevMonthLastDay y m = .ok (daysInMonth y m) := by
  unfold prevMonthLastDay
  by_cases h12 : m = 12
  · subst h12
    have hdiv : (12 : Nat) / 12 = 1 := rfl
    have hmod : (12 : Nat) % 12 = 0 := rfl
    rw [hdiv] at hcap
    simp only [hdiv, hmod]
    rw [if_pos ⟨by omega, hcap⟩]
    rw [if_pos trivial]
    rw [if_neg (by omega)]
    rw [show y + 1 - 1 = y from by omega]
  · have hdiv : m / 12 = 0 := Nat.div_eq_of_lt (by omega)
    have hmod : m % 12 = m := Nat.mod_eq_of_lt (by omega)
    rw [hdiv] at hcap
    simp only [hdiv, hmod]
    rw [if_pos ⟨by omega, by omega⟩]
    rw [if_neg (by omega)]
    rw [show m + 1 - 1 = m from by omega]
    rfl

theorem mkDate_ok {y m d : Nat}
    (h : 1 ≤ y ∧ y ≤ 9999 ∧ 1 ≤ m ∧ m ≤ 12 ∧ 1 ≤ d ∧ d ≤ daysInMonth y m) :
    mkDate y m d = .ok ⟨y, m, d⟩ := by
  unfold mkDate
  rw [if_pos h]

theorem monthOfAbbrev_range {l : List Char} {m : Nat} (h : monthOfAbbrev l = some m) :
    1 ≤ m ∧ m ≤ 12 := by
  unfold monthOfAbbrev at h
  by_cases h0 : l = ['j', 'a', 'n']
  · rw [if_pos h0] at h
    injection h with h
    omega
  · rw [if_neg h0] at h
    by_cases h1 : l = ['f', 'e', 'b']
    · rw [if_pos h1] at h
      injection h with h
      omega
    · rw [if_neg h1] at h
      by_cases h2 : l = ['m', 'a', 'r']
      · rw [if_pos h2] at h
        injection h with h
        omega
      · rw [if_neg h2] at h
        by_cases h3 : l = ['a', 'p', 'r']
        · rw [if_pos h3] at h
          injection h with h
          omega
        · rw [if_neg h3] at h
          by_cases h4 : l = ['m', 'a', 'y']
          · rw [if_pos h4] at h
            injection h with h
            omega
          · rw [if_neg h4] at h
            by_cases h5 : l = ['j', 'u', 'n']
            · rw [if_pos h5] at h
              injection h with h
              omega
            · rw [if_neg h5] at h
              by_cases h6 : l = ['j', 'u', 'l']
              · rw [if_pos h6] at h
                injection h with h
                omega
              · rw [if_neg h6] at h
                by_cases h7 : l = ['a', 'u', 'g']
                · rw [if_pos h7] at h
                  injection h with h
                  omega
                · rw [if_neg h7] at h
                  by_cases h8 : l = ['s', 'e', 'p']
                  · rw [if_pos h8] at h
                    injection h with h
                    omega
                  · rw [if_neg h8] at h
                    by_cases h9 : l = ['o', 'c', 't']
                    · rw [if_pos h9] at h
                      injection h with h
                      omega
                    · rw [if_neg h9] at h
                      by_cases h10 : l = ['n', 'o', 'v']
                      · rw [if_pos h10] at h
                        injection h with h
                        omega
                      · rw [if_neg h10] at h
                        by_cases h11 : l = ['d', 'e', 'c']
                        · rw [if_pos h11] at h
                          injection h with h
                          omega
                        · rw [if_neg h11] at h
                          exact Option.noConfusion h

theorem ne_empty_of_data {s : String} {c : Char} {r : List Char} (h : s.data = c :: r) :
    s ≠ "" := by
  intro h0
  rw [h0] at h
  exact List.noConfusion (show ([] : List Char) = c :: r from h)

/-- C1: every input string of a recognized form resolves to the specified
concrete date — the exact date for `YYYY-MM-DD`; the last calendar day of
the month for `YYYY-MM` and for a three-letter month abbreviation plus year
(any letter case, via the `monthOfAbbrev` table on the lowercased
abbreviation); December 31 for `YYYY`; and the last day of the quarter's
final month (`3·q`) for `YYYY Q[1-4]` with optional whitespace and either
case of `Q` — with leap-year-correct month lengths (`daysInMonth`).  The
hypotheses restrict to component values that denote a representable
`datetime.date` (year 1–9999), the domain on which the resolver is
exception-free. -/
theorem C1_resolver_recognized_forms :
    (∀ (s : String) (a b c d e f g h : Char),
      s.data = [a, b, c, d, '-', e, f, '-', g, h] →
      isDigitChar a = true → isDigitChar b = true → isDigitChar c = true →
      isDigitChar d = true → isDigitChar e = true → isDigitChar f = true →
      isDigitChar g = true → isDigitChar h = true →
      1 ≤ num4 a b c d → 1 ≤ num2 e f → num2 e f ≤ 12 → 1 ≤ num2 g h →
      num2 g h ≤ daysInMonth (num4 a b c d) (num2 e f) →
      parse_partial_date (some s) =
        .ok (some ⟨num4 a b c d, num2 e f, num2 g h⟩))
    ∧ (∀ (s : String) (a b c d e f : Char),
      s.data = [a, b, c, d, '-', e, f] →
      isDigitChar a = true → isDigitChar b = true → isDigitChar c = true →
      isDigitChar d = true → isDigitChar e = true → isDigitChar f = true →
      1 ≤ num4 a b c d → 1 ≤ num2 e f → num2 e f ≤ 12 →
      num4 a b c d + num2 e f / 12 ≤ 9999 →
      parse_partial_date (some s) =
        .ok (some ⟨num4 a b c d, num2 e f, daysInMonth (num4 a b c d) (num2 e f)⟩))
    ∧ (∀ (s : String) (a b c d : Char),
      s.data = [a, b, c, d] →
      isDigitChar a = true → isDigitChar b = true → isDigitChar c = true →
      isDigitChar d = true → 1 ≤ num4 a b c d →
      parse_partial_date (some s) = .ok (some ⟨num4 a b c d, 12, 31⟩))
    ∧ (∀ (s : String) (a b c d qc n : Char) (ws : List Char),
      s.data = [a, b, c, d] ++ ws ++ [qc, n] →
      isDigitChar a = true → isDigitChar b = true → isDigitChar c = true →
      isDigitChar d = true → (∀ w ∈ ws, isSpaceChar w = true) →
      (qc = 'Q' ∨ qc = 'q') → 49 ≤ n.toNat → n.toNat ≤ 52 →
      1 ≤ num4 a b c d → num4 a b c d + (digitVal n * 3) / 12 ≤ 9999 →
      parse_partial_date (some s) =
        .ok (some ⟨num4 a b c d, digitVal n * 3,
          daysInMonth (num4 a b c d) (digitVal n * 3)⟩))
    ∧ (∀ (s : String) (l1 l2 l3 sp : Char) (ws : List Char) (a b c d : Char) (mo : Nat),
      s.data = [l1, l2, l3, sp] ++ ws ++ [a, b, c, d] →
      isAlphaChar l1 = true → isAlphaChar l2 = true → isAlphaChar l3 = true →
      isSpaceChar sp = true → (∀ w ∈ ws, isSpaceChar w = true) →
      isDigitChar a = true → isDigitChar b = true → isDigitChar c = true →
      isDigitChar d = true →
      monthOfAbbrev [toLowerChar l1, toLowerChar l2, toLowerChar l3] = some mo →
      1 ≤ num4 a b c d → num4 a b c d + mo / 12 ≤ 9999 →
      parse_partial_date (some s) =
        .ok (some ⟨num4 a b c d, mo, daysInMonth (num4 a b c d) mo⟩)) := by
  refine ⟨?_, ?_, ?_, ?_, ?_⟩
  · -- YYYY-MM-DD
    intro s a b c d e f g h hdata ha hb hc hd he hf hg hh hy1 hm1 hm2 hd1 hd2
    have hne : s ≠ "" := ne_empty_of_data hdata
    have hstrip : pstrip [a, b, c, d, '-', e, f, '-', g, h] =
        [a, b, c, d, '-', e, f, '-', g, h] := by
      simpa using pstrip_cons_snoc (digit_not_space ha) (digit_not_space hh)
        [b, c, d, '-', e, f, '-', g]
    have hymd : matchYMD [a, b, c, d, '-', e, f, '-', g, h] =
        some (num4 a b c d, num2 e f, num2 g h) := by
      simp only [matchYMD, optBind_some, optBind_none, read4_cons ha hb hc hd, expectChar_eq, read2_cons he hf,
        read2_cons hg hh, expectEnd_nil]
      try rfl
    simp only [parse_partial_date]
    rw [if_neg hne, hdata, hstrip]
    simp only [hymd, mkDate_ok ⟨hy1, num4_le ha hb hc hd, hm1, hm2, hd1, hd2⟩]
    rfl
  · -- YYYY-MM
    intro s a b c d e f hdata ha hb hc hd he hf hy1 hm1 hm2 hcap
    have hne : s ≠ "" := ne_empty_of_data hdata
    have hstrip : pstrip [a, b, c, d, '-', e, f] = [a, b, c, d, '-', e, f] := by
      simpa using pstrip_cons_snoc (digit_not_space ha) (digit_not_space hf)
        [b, c, d, '-', e]
    have hymd : matchYMD [a, b, c, d, '-', e, f] = none := by
      simp only [matchYMD, optBind_some, optBind_none, read4_cons ha hb hc hd, expectChar_eq, read2_cons he hf,
        expectChar_nil]
      try rfl
    have hym : matchYM [a, b, c, d, '-', e, f] = some (num4 a b c d, num2 e f) := by
      simp only [matchYM, optBind_some, optBind_none, read4_cons ha hb hc hd, expectChar_eq, read2_cons he hf,
        expectEnd_nil]
      try rfl
    simp only [parse_partial_date]
    rw [if_neg hne, hdata, hstrip]
    simp only [hymd, hym, prevMonthLastDay_eq hy1 hm1 hm2 hcap,
      mkDate_ok ⟨hy1, num4_le ha hb hc hd, hm1, hm2, daysInMonth_pos _ _, le_refl _⟩]
    rfl
  · -- YYYY
    intro s a b c d hdata ha hb hc hd hy1
    have hne : s ≠ "" := ne_empty_of_data hdata
    have hstrip : pstrip [a, b, c, d] = [a, b, c, d] := by
      simpa using pstrip_cons_snoc (digit_not_space ha) (digit_not_space hd) [b, c]
    have hymd : matchYMD [a, b, c, d] = none := by
      simp only [matchYMD, optBind_some, optBind_none, read4_cons ha hb hc hd, expectChar_nil]
      try rfl
    have hym : matchYM [a, b, c, d] = none := by
      simp only [matchYM, optBind_some, optBind_none, read4_cons ha hb hc hd, expectChar_nil]
      try rfl
    have hy : matchY [a, b, c, d] = some (num4 a b c d) := by
      simp only [matchY, optBind_some, optBind_none, read4_cons ha hb hc hd, expectEnd_nil]
      try rfl
    simp only [parse_partial_date]
    rw [if_neg hne, hdata, hstrip]
    simp only [hymd, hym, hy,
      mkDate_ok ⟨hy1, num4_le ha hb hc hd, by omega, by omega, by omega,
        le_of_eq (daysInMonth_dec _).symm⟩]
    rfl
  · -- YYYY Q[1-4]
    intro s a b c d qc n ws hdata ha hb hc hd hws hq hn1 hn2 hy1 hcap
    have hnDigit : isDigitChar n = true := by
      simp [isDigitChar]
      omega
    have hqns : isSpaceChar qc = false := by
      rcases hq with h | h <;> subst h <;> decide
    have hqnd : qc ≠ '-' := by
      rcases hq with h | h <;> subst h <;> decide
    have hne : s ≠ "" := ne_empty_of_data hdata
    have hform : [a, b, c, d] ++ ws ++ [qc, n] = a :: b :: c :: d :: (ws ++ [qc, n]) := by
      simp
    have hform2 : [a, b, c, d] ++ ws ++ [qc, n] =
        a :: (([b, c, d] ++ ws ++ [qc]) ++ [n]) := by
      simp
    have hstrip : pstrip ([a, b, c, d] ++ ws ++ [qc, n]) = [a, b, c, d] ++ ws ++ [qc, n] := by
      rw [hform2, pstrip_cons_snoc (digit_not_space ha) (digit_not_space hnDigit), ← hform2]
    have hfail : expectChar '-' (ws ++ [qc, n]) = none := by
      rcases ws with _ | ⟨w0, ws'⟩
      · simpa using expectChar_ne hqnd [n]
      · have hw0 : isSpaceChar w0 = true := hws w0 (by simp)
        have hw0ne : w0 ≠ '-' := by
          intro hh
          rw [hh] at hw0
          exact absurd hw0 (by decide)
        simpa using expectChar_ne hw0ne (ws' ++ [qc, n])
    have hymd : matchYMD (a :: b :: c :: d :: (ws ++ [qc, n])) = none := by
      simp only [matchYMD, optBind_some, optBind_none, read4_cons ha hb hc hd, hfail]
      try rfl
    have hym : matchYM (a :: b :: c :: d :: (ws ++ [qc, n])) = none := by
      simp only [matchYM, optBind_some, optBind_none, read4_cons ha hb hc hd, hfail]
      try rfl
    have hend : expectEnd (ws ++ [qc, n]) = none := by
      rcases ws with _ | ⟨w0, ws'⟩ <;> rfl
    have hy : matchY (a :: b :: c :: d :: (ws ++ [qc, n])) = none := by
      simp only [matchY, optBind_some, optBind_none, read4_cons ha hb hc hd, hend]
      try rfl
    have hdw : (ws ++ [qc, n]).dropWhile isSpaceChar = [qc, n] := by
      rw [dropWhile_spaces_append hws]
      exact dropWhile_nonspace_head hqns [n]
    have hqmatch : matchQuarter (a :: b :: c :: d :: (ws ++ [qc, n])) =
        some (num4 a b c d, digitVal n) := by
      simp only [matchQuarter, optBind_some, optBind_none, read4_cons ha hb hc hd, hdw, expectQ_pos hq,
        readQDigit_pos ⟨hn1, hn2⟩, expectEnd_nil]
      try rfl
    have hm1 : 1 ≤ digitVal n * 3 := by
      simp [digitVal]
      omega
    have hm2 : digitVal n * 3 ≤ 12 := by
      simp only [digitVal]
      omega
    simp only [parse_partial_date]
    rw [if_neg hne, hdata, hstrip, hform]
    simp only [hymd, hym, hy, hqmatch, prevMonthLastDay_eq hy1 hm1 hm2 hcap,
      mkDate_ok ⟨hy1, num4_le ha hb hc hd, hm1, hm2, daysInMonth_pos _ _, le_refl _⟩]
    rfl
  · -- Mon YYYY
    intro s l1 l2 l3 sp ws a b c d mo hdata h1 h2 h3 hsp hws ha hb hc hd hmo hy1 hcap
    have hne : s ≠ "" := ne_empty_of_data hdata
    have hform : [l1, l2, l3, sp] ++ ws ++ [a, b, c, d] =
        l1 :: l2 :: l3 :: sp :: (ws ++ [a, b, c, d]) := by
      simp
    have hform2 : [l1, l2, l3, sp] ++ ws ++ [a, b, c, d] =
        l1 :: (([l2, l3, sp] ++ ws ++ [a, b, c]) ++ [d]) := by
      simp
    have hstrip : pstrip ([l1, l2, l3, sp] ++ ws ++ [a, b, c, d]) =
        [l1, l2, l3, sp] ++ ws ++ [a, b, c, d] := by
      rw [hform2, pstrip_cons_snoc (alpha_not_space h1) (digit_not_space hd), ← hform2]
    have hfail4 : read4 (l1 :: l2 :: l3 :: sp :: (ws ++ [a, b, c, d])) = none :=
      read4_fail_head (alpha_not_digit h1) _
    have hymd : matchYMD (l1 :: l2 :: l3 :: sp :: (ws ++ [a, b, c, d])) = none := by
      simp only [matchYMD, optBind_some, optBind_none, hfail4]
      try rfl
    have hym : matchYM (l1 :: l2 :: l3 :: sp :: (ws ++ [a, b, c, d])) = none := by
      simp only [matchYM, optBind_some, optBind_none, hfail4]
      try rfl
    have hy : matchY (l1 :: l2 :: l3 :: sp :: (ws ++ [a, b, c, d])) = none := by
      simp only [matchY, optBind_some, optBind_none, hfail4]
      try rfl
    have hquarter : matchQuarter (l1 :: l2 :: l3 :: sp :: (ws ++ [a, b, c, d])) = none := by
      simp only [matchQuarter, optBind_some, optBind_none, hfail4]
      try rfl
    have hdw : (ws ++ [a, b, c, d]).dropWhile isSpaceChar = [a, b, c, d] := by
      rw [dropWhile_spaces_append hws]
      exact dropWhile_nonspace_head (digit_not_space ha) _
    have hmon : matchMonYear (l1 :: l2 :: l3 :: sp :: (ws ++ [a, b, c, d])) =
        some (l1, l2, l3, num4 a b c d) := by
      simp only [matchMonYear, optBind_some, optBind_none, readAlpha_pos h1, readAlpha_pos h2, readAlpha_pos h3,
        expectSpace_pos hsp, hdw, read4_cons ha hb hc hd, expectEnd_nil]
      try rfl
    obtain ⟨hm1, hm2⟩ := monthOfAbbrev_range hmo
    simp only [parse_partial_date]
    rw [if_neg hne, hdata, hstrip, hform]
    simp only [hymd, hym, hy, hquarter, hmon, hmo, prevMonthLastDay_eq hy1 hm1 hm2 hcap,
      mkDate_ok ⟨hy1, num4_le ha hb hc hd, hm1, hm2, daysInMonth_pos _ _, le_refl _⟩]
    rfl

theorem C1_resolver_recognized_forms_witness :
    parse_partial_date (some "2026-03-15") = .ok (some ⟨2026, 3, 15⟩) ∧
    parse_partial_date (some "2026-03") = .ok (some ⟨2026, 3, 31⟩) ∧
    parse_partial_date (some "2026") = .ok (some ⟨2026, 12, 31⟩) ∧
    parse_partial_date (some "2024 Q1") = .ok (some ⟨2024, 3, 31⟩) ∧
    parse_partial_date (some "Feb 2026") = .ok (some ⟨2026, 2, 28⟩) :=
  ⟨C1_resolver_recognized_forms.1 "2026-03-15" '2' '0' '2' '6' '0' '3' '1' '5' rfl
      (by decide) (by decide) (by decide) (by decide) (by decide) (by decide)
      (by decide) (by decide) (by decide) (by decide) (by decide) (by decide) (by decide),
   C1_resolver_recognized_forms.2.1 "2026-03" '2' '0' '2' '6' '0' '3' rfl
      (by decide) (by decide) (by decide) (by decide) (by decide) (by decide)
      (by decide) (by decide) (by decide) (by decide),
   C1_resolver_recognized_forms.2.2.1 "2026" '2' '0' '2' '6' rfl
      (by decide) (by decide) (by decide) (by decide) (by decide),
   C1_resolver_recognized_forms.2.2.2.1 "2024 Q1" '2' '0' '2' '4' 'Q' '1' [' '] rfl
      (by decide) (by decide) (by decide) (by decide) (by decide) (Or.inl rfl)
      (by decide) (by decide) (by decide) (by decide),
   C1_resolver_recognized_forms.2.2.2.2 "Feb 2026" 'F' 'e' 'b' ' ' [] '2' '0' '2' '6' 2 rfl
      (by decide) (by decide) (by decide) (by decide) (by decide) (by decide)
      (by decide) (by decide) (by decide) (by decide) (by decide) (by decide)⟩

end XBI
